import Mathlib

/-!
Verification of the snapshot reconciliation engine of the tor-history importer
(`tor-nodes.go`).  The Go source is embedded shallowly: pure Go functions become
Lean functions, the database side effects become an explicit effect trace plus a
state-transformer interpretation, Go `string` stays `String`, Go `uint64`
becomes `Nat`, and Go `float64` fields (never used arithmetically by the code
under study) are represented by an integral code whose equality models Go
equality of the decoded values.  Functions of the repository that live in the
database layer (not part of `tor-nodes.go`) are modelled from the design
specification and marked as such in their doc comments.
-/

/-! ## JSON values and `encoding/json` marshalling

`TorRelayDetails.Exit_policy_summary` and `Exit_policy_v6_summary` are decoded
into Go `interface` values, i.e. arbitrary JSON trees; `Json` models those
trees (numbers as an integral code, see the header note on `float64`).
-/

mutual
inductive Json where
  | null : Json
  | jbool : Bool → Json
  | jnum : Int → Json
  | jstr : String → Json
  | jarr : JsonArr → Json
  | jobj : JsonObj → Json
deriving DecidableEq

inductive JsonArr where
  | nil : JsonArr
  | cons : Json → JsonArr → JsonArr
deriving DecidableEq

inductive JsonObj where
  | nil : JsonObj
  | cons : String → Json → JsonObj → JsonObj
deriving DecidableEq
end

def hexDigit (n : Nat) : Char :=
  if n < 10 then Char.ofNat (48 + n) else Char.ofNat (87 + n)

/-- String escaping of Go `encoding/json` (default HTML escaping on). -/
def escapeJsonChar (c : Char) : String :=
  if c = '"' then "\\\""
  else if c = '\\' then "\\\\"
  else if c = '\n' then "\\n"
  else if c = '\r' then "\\r"
  else if c = '\t' then "\\t"
  else if c = '<' then "\\u003c"
  else if c = '>' then "\\u003e"
  else if c = '&' then "\\u0026"
  else if c.toNat < 32 then
    "\\u00" ++ String.singleton (hexDigit (c.toNat / 16)) ++
      String.singleton (hexDigit (c.toNat % 16))
  else if c.toNat = 8232 then "\\u2028"
  else if c.toNat = 8233 then "\\u2029"
  else String.singleton c

def escapeJsonString (s : String) : String :=
  String.join (s.data.map escapeJsonChar)

mutual
/-- Go `json.Marshal` on a decoded JSON value. -/
def jsonMarshal : Json → String
  | .null => "null"
  | .jbool true => "true"
  | .jbool false => "false"
  | .jnum i => toString i
  | .jstr s => "\"" ++ escapeJsonString s ++ "\""
  | .jarr xs => "[" ++ jsonMarshalArr xs ++ "]"
  | .jobj kvs => "\x7b" ++ jsonMarshalObj kvs ++ "\x7d"

def jsonMarshalArr : JsonArr → String
  | .nil => ""
  | .cons x .nil => jsonMarshal x
  | .cons x (.cons y tl) => jsonMarshal x ++ "," ++ jsonMarshalArr (.cons y tl)

def jsonMarshalObj : JsonObj → String
  | .nil => ""
  | .cons k v .nil => "\"" ++ escapeJsonString k ++ "\":" ++ jsonMarshal v
  | .cons k v (.cons k2 v2 tl) =>
    "\"" ++ escapeJsonString k ++ "\":" ++ jsonMarshal v ++ "," ++
      jsonMarshalObj (.cons k2 v2 tl)
end

def strListToJsonArr : List String → JsonArr
  | [] => .nil
  | s :: rest => .cons (.jstr s) (strListToJsonArr rest)

/-- A Go `[]string` slice as a JSON value: a nil slice marshals to `null`,
a non-nil slice to a JSON array (`Option.none` models the nil slice). -/
def optStrListToJson : Option (List String) → Json
  | none => .null
  | some xs => .jarr (strListToJsonArr xs)

/-- `string(json.Marshal(...))` of a Go `[]string` (as used for `Exit_policy`). -/
def marshalStrListOpt (x : Option (List String)) : String :=
  jsonMarshal (optStrListToJson x)

/-! ## Go string comparison

Go compares strings byte-wise; for valid UTF-8 that order coincides with
code-point lexicographic order, implemented here directly so that it reduces
on concrete inputs. -/

def goBytesLt : List Char → List Char → Bool
  | [], [] => false
  | [], _ :: _ => true
  | _ :: _, [] => false
  | a :: as, b :: bs =>
    if a.toNat < b.toNat then true
    else if b.toNat < a.toNat then false
    else goBytesLt as bs

/-- Go `a < b` on strings. -/
def goStringLt (a b : String) : Bool := goBytesLt a.data b.data

/-- Go `strings.ToLower` (per-character simple case mapping; over the ASCII
range, which is what contact strings use, it coincides with Go's mapping). -/
def goToLower (s : String) : String := String.mk (s.data.map Char.toLower)

/-! ## The relay record (`TorRelayDetails`)

All fields of the Go struct, with the type translation described in the file
header.  Go distinguishes nil slices from empty slices; except for
`Exit_policy` (where `json.Marshal` makes the distinction observable in
`recordsMatch`) both are modelled as the empty list. -/

structure TorRelayDetails where
  Nickname : String := ""
  Fingerprint : String := ""
  Or_addresses : List String := []
  Exit_addresses : List String := []
  Dir_address : String := ""
  Last_seen : String := ""
  Last_changed_address_or_port : String := ""
  First_seen : String := ""
  Running : Bool := false
  Hibernating : Bool := false
  Flags : List String := []
  Country : String := ""
  Country_name : String := ""
  Region_name : String := ""
  City_name : String := ""
  Latitude : Int := 0
  Longitude : Int := 0
  As : String := ""
  As_number : String := ""
  As_name : String := ""
  Consensus_weight : Nat := 0
  Host_name : String := ""
  Verified_host_names : List String := []
  Unverified_host_names : List String := []
  Last_restarted : String := ""
  Bandwidth_rate : Nat := 0
  Bandwidth_burst : Nat := 0
  Observed_bandwidth : Nat := 0
  Advertised_bandwidth : Nat := 0
  Exit_policy : Option (List String) := none
  Exit_policy_summary : Json := .null
  Exit_policy_v6_summary : Json := .null
  Contact : String := ""
  Platform : String := ""
  Version : String := ""
  Recommended_version : Bool := false
  Version_status : String := ""
  Effective_family : List String := []
  Alleged_family : List String := []
  Indirect_family : List String := []
  Consensus_weight_fraction : Int := 0
  Guard_probability : Int := 0
  Middle_probability : Int := 0
  Exit_probability : Int := 0
  Measured : Bool := false
  Unreachable_or_addresses : List String := []
deriving DecidableEq

def emptyRelay : TorRelayDetails := {}

/-- `cleanupRelayStruct`: blanks the dictionary-backed fields, the two
lifecycle timestamps and the fingerprint before the struct is serialized into
the row's JSON blob (nil slice / nil interface become `none` / `Json.null`). -/
def cleanupRelayStruct (pr : TorRelayDetails) : TorRelayDetails :=
  { pr with
    Nickname := ""
    Country := ""
    Country_name := ""
    Region_name := ""
    City_name := ""
    Platform := ""
    Version := ""
    Contact := ""
    Last_changed_address_or_port := ""
    First_seen := ""
    Fingerprint := ""
    Exit_policy := none
    Exit_policy_summary := .null
    Exit_policy_v6_summary := .null }

/-! ## The Latest-State Cache entry

In Go, `g_db.lrd` maps a fingerprint to a `map[string]string`; looking up a
missing key yields `""`.  The entry is modelled as a structure whose fields are
the keys the engine reads; the row id and fingerprint id (decimal strings in
Go) are carried as `Nat`.  An absent fingerprint yields the all-empty entry,
exactly like Go's nil inner map. -/

structure LrdEntry where
  Fingerprint : String := ""
  Nickname : String := ""
  Country : String := ""
  CityName : String := ""
  PlatformName : String := ""
  VersionName : String := ""
  ContactName : String := ""
  Last_changed_address_or_port : String := ""
  First_seen : String := ""
  ExitPolicy : String := ""
  ExitPolicySummary : String := ""
  ExitPolicyV6Summary : String := ""
  RecordLastSeen : String := ""
  id : Nat := 0
  ID_NodeFingerprints : Nat := 0
deriving DecidableEq

def emptyLrdEntry : LrdEntry := {}

/-- `recordsMatch` from `tor-nodes.go`: compares the fixed comparable field
set of an incoming relay against the cached entry (contact case-insensitively,
the three policy blobs in marshalled form). -/
def recordsMatch (relay : TorRelayDetails) (lrdfp : LrdEntry) : Bool :=
  let js_exitp := marshalStrListOpt relay.Exit_policy
  let js_exitps := jsonMarshal relay.Exit_policy_summary
  let js_exitps6 := jsonMarshal relay.Exit_policy_v6_summary
  relay.Nickname == lrdfp.Nickname &&
  relay.Country == lrdfp.Country &&
  relay.City_name == lrdfp.CityName &&
  relay.Platform == lrdfp.PlatformName &&
  relay.Version == lrdfp.VersionName &&
  goToLower relay.Contact == goToLower lrdfp.ContactName &&
  relay.Last_changed_address_or_port == lrdfp.Last_changed_address_or_port &&
  relay.First_seen == lrdfp.First_seen &&
  js_exitp == lrdfp.ExitPolicy &&
  js_exitps == lrdfp.ExitPolicySummary &&
  js_exitps6 == lrdfp.ExitPolicyV6Summary

/-- The eleven comparable-field equalities of `recordsMatch`, in source order,
each with the source's notion of equality for that field. -/
def comparableFieldEqs (relay : TorRelayDetails) (lrdfp : LrdEntry) : List Bool :=
  [relay.Nickname == lrdfp.Nickname,
   relay.Country == lrdfp.Country,
   relay.City_name == lrdfp.CityName,
   relay.Platform == lrdfp.PlatformName,
   relay.Version == lrdfp.VersionName,
   goToLower relay.Contact == goToLower lrdfp.ContactName,
   relay.Last_changed_address_or_port == lrdfp.Last_changed_address_or_port,
   relay.First_seen == lrdfp.First_seen,
   marshalStrListOpt relay.Exit_policy == lrdfp.ExitPolicy,
   jsonMarshal relay.Exit_policy_summary == lrdfp.ExitPolicySummary,
   jsonMarshal relay.Exit_policy_v6_summary == lrdfp.ExitPolicyV6Summary]

/-- `allStringsInSetMatch`: every needle occurs in the set (vacuously true for
no needles, as in the source's early return). -/
def allStringsInSetMatch (needles set : List String) : Bool :=
  needles.all (fun n => set.contains n)

/-! ## Go maps as association lists (lookup-equivalent semantics) -/

def mapLookup {α : Type} : List (String × α) → String → Option α
  | [], _ => none
  | (k, v) :: rest, key => if k == key then some v else mapLookup rest key

def mapInsert {α : Type} (m : List (String × α)) (k : String) (v : α) :
    List (String × α) :=
  (k, v) :: m.filter (fun p => !(p.1 == k))

def mapErase {α : Type} (m : List (String × α)) (k : String) :
    List (String × α) :=
  m.filter (fun p => !(p.1 == k))

/-- The Latest-State Cache `g_db.lrd`, fingerprint-keyed. -/
abbrev Lrd : Type := List (String × LrdEntry)

/-- Indexing `g_db.lrd[fp]`: a missing fingerprint yields the nil inner map,
whose key lookups all give `""` (the all-empty entry). -/
def lrdGet (lrd : Lrd) (fp : String) : LrdEntry :=
  (mapLookup lrd fp).getD emptyLrdEntry

/-! ## The Value Dictionary Cache

Modelled from the spec: `value2id` and the value dictionary tables are in the
repository's database layer, which is not part of `tor-nodes.go`.  Per §4.1 a
dictionary resolves `(attribute class, raw text)` to a surrogate id, returning
a sentinel "no value" id for empty text without touching the store, and
memoizing/inserting otherwise.  Here the dictionary is the list of its
`(class, text)` entries; the surrogate id of the entry at position `j` is
`j + 1`, and `0` is the sentinel. -/

abbrev Dict : Type := List (String × String)

def dictFind : List (String × String) → String → String → Option Nat
  | [], _, _ => none
  | e :: rest, c, t =>
    if e.1 = c ∧ e.2 = t then some 0
    else (dictFind rest c t).map (fun n => n + 1)

/-- Decode a surrogate id back to its raw text (the sentinel decodes to `""`). -/
def dictText (d : Dict) (i : Nat) : String :=
  match i with
  | 0 => ""
  | Nat.succ j =>
    match List.get? d j with
    | some e => e.2
    | none => ""

/-- Modelled from the spec: `g_db.value2id` (repository database layer, not in
`tor-nodes.go`).  Resolve `(class, text)` to a surrogate id, inserting on a
miss; empty text gives the sentinel id without a store round-trip (§4.1). -/
def value2id (d : Dict) (valueClass : String) (text : String) : Nat × Dict :=
  if text = "" then (0, d)
  else
    match dictFind d valueClass text with
    | some j => (j + 1, d)
    | none => (d.length + 1, d ++ [(valueClass, text)])

/-- The ten dictionary resolutions performed by `addNewTorRelayToDB`, in source
order.  `normalizeCountryID` (database layer, not in `tor-nodes.go`) is
modelled from the spec as the dictionary resolution of the country code (§3:
country code and name are normalized jointly; only the code is a comparable
field, so the model keys the class "country" by the code). -/
def relayDictTexts (relay : TorRelayDetails) : List (String × String) :=
  [("fingerprint", relay.Fingerprint),
   ("country", relay.Country),
   ("region", relay.Region_name),
   ("city", relay.City_name),
   ("platform", relay.Platform),
   ("version", relay.Version),
   ("contact", relay.Contact),
   ("exitp", marshalStrListOpt relay.Exit_policy),
   ("exitps", jsonMarshal relay.Exit_policy_summary),
   ("exitps6", jsonMarshal relay.Exit_policy_v6_summary)]

/-- Sequentially resolve a list of `(class, text)` pairs through the
dictionary, threading the dictionary state left to right (the order in which
`addNewTorRelayToDB` performs its `value2id` calls). -/
def resolveAll (d : Dict) : List (String × String) → List Nat × Dict
  | [] => ([], d)
  | (c, t) :: rest =>
    let r := value2id d c t
    let rr := resolveAll r.2 rest
    (r.1 :: rr.1, rr.2)

/-! ## Persisted rows and the database state

Modelled from the spec: the physical schema is in the database layer.  A
`TorRelayRow` carries exactly the values `addNewTorRelayToDB` passes to the
`TorRelays` insert (`stmtAddTorRelays.Exec`): the ten surrogate ids, the
nickname / `Last_changed_address_or_port` / `First_seen` saved before the
struct is compacted, `RecordTimeInserted` and `RecordLastSeen`, the flags and
the compacted struct that is serialized into the row's JSON blob.  An
`AddrRow` is one `(role, fingerprint id, address)` history row with its own
insertion / last-seen timestamps (§3, §4.4). -/

structure TorRelayRow where
  id : Nat
  fpid : Nat
  countryid : Nat
  regionid : Nat
  cityid : Nat
  platformid : Nat
  versionid : Nat
  contactid : Nat
  exitp : Nat
  exitps : Nat
  exitps6 : Nat
  nick : String
  lastChanged : String
  firstSeen : String
  rti : String
  rls : String
  flags : List String
  jsRelay : TorRelayDetails
deriving DecidableEq

structure AddrRow where
  role : String
  fpid : Nat
  addr : String
  rti : String
  rls : String
deriving DecidableEq

structure DBState where
  dict : Dict
  relayRows : List TorRelayRow
  addrRows : List AddrRow
  nextRowId : Nat
deriving DecidableEq

def emptyDB : DBState :=
  { dict := [], relayRows := [], addrRows := [], nextRowId := 1 }

/-- Modelled from the spec: `g_db.addToIP` (database layer, not in
`tor-nodes.go`): per §4.4, insert a history row for `(role, fpid, addr)` with
the supplied timestamps if none exists, otherwise advance (never regress) its
last-seen timestamp. -/
def addToIP (st : DBState) (role : String) (fpid : Nat) (rti rls addr : String) :
    DBState :=
  if st.addrRows.any (fun r => r.role == role && r.fpid == fpid && r.addr == addr) then
    { st with addrRows := st.addrRows.map (fun r =>
        if r.role == role && r.fpid == fpid && r.addr == addr && goStringLt r.rls rls
        then { r with rls := rls } else r) }
  else
    { st with addrRows := st.addrRows ++ [{ role := role, fpid := fpid, addr := addr,
                                            rti := rti, rls := rls }] }

/-- Modelled from the spec: `g_db.updateIfNeededRelayAddressRLS` (database
layer, not in `tor-nodes.go`): per §4.4, same insert-or-advance semantics,
keyed by the entity's fingerprint id. -/
def updateIfNeededRelayAddressRLS (st : DBState) (role : String) (fpid : Nat)
    (dlts addr : String) : DBState :=
  addToIP st role fpid dlts dlts addr

/-- Modelled from the spec: `g_db.updateTorRelayRLS` (database layer, not in
`tor-nodes.go`): advance the `RecordLastSeen` of the entity row with the given
row id to the new snapshot timestamp (§4.3 freshness-only update). -/
def updateTorRelayRLS (st : DBState) (rowId : Nat) (dlts : String) : DBState :=
  { st with relayRows := st.relayRows.map (fun r =>
      if r.id = rowId then { r with rls := dlts } else r) }

/-- `addNewRelayAddresses` from `tor-nodes.go`: insert the OR / Exit addresses
and the directory address (when non-empty) into the address history, all with
insertion and last-seen timestamps equal to the batch timestamp.  (`lastID` is
received but, as in the source, only the fingerprint id keys the writes.) -/
def addNewRelayAddresses (st : DBState) (dlts : String) (lastID fpid : Nat)
    (ors exits : List String) (dir : String) : DBState :=
  let st1 := ors.foldl (fun s a => addToIP s "Or" fpid dlts dlts a) st
  let st2 := exits.foldl (fun s a => addToIP s "Ex" fpid dlts dlts a) st1
  if 0 < dir.length then addToIP st2 "Di" fpid dlts dlts dir else st2

/-- The entity row `addNewTorRelayToDB` hands to `stmtAddTorRelays.Exec`: the
ten surrogate ids (in the order of `relayDictTexts`), the nickname and
lifecycle timestamps saved before `cleanupRelayStruct`, both freshness
timestamps set to the batch `dlts`, and the flags / blob taken from the
compacted struct. -/
def newRelayRow (st : DBState) (relay : TorRelayDetails) (dlts : String) :
    TorRelayRow :=
  let ids := (resolveAll st.dict (relayDictTexts relay)).1
  let cleaned := cleanupRelayStruct relay
  { id := st.nextRowId,
    fpid := ids.getD 0 0, countryid := ids.getD 1 0, regionid := ids.getD 2 0,
    cityid := ids.getD 3 0, platformid := ids.getD 4 0, versionid := ids.getD 5 0,
    contactid := ids.getD 6 0, exitp := ids.getD 7 0, exitps := ids.getD 8 0,
    exitps6 := ids.getD 9 0,
    nick := relay.Nickname,
    lastChanged := relay.Last_changed_address_or_port,
    firstSeen := relay.First_seen,
    rti := dlts, rls := dlts,
    flags := cleaned.Flags, jsRelay := cleaned }

/-- `addNewTorRelayToDB` from `tor-nodes.go`: resolve the ten dictionary
values (in source order, via `relayDictTexts`), insert the entity row built by
`newRelayRow`, then add the relay's addresses. -/
def addNewTorRelayToDB (st : DBState) (relay : TorRelayDetails) (dlts : String) :
    DBState :=
  let rr := resolveAll st.dict (relayDictTexts relay)
  let cleaned := cleanupRelayStruct relay
  addNewRelayAddresses
    { st with dict := rr.2,
              relayRows := st.relayRows ++ [newRelayRow st relay dlts],
              nextRowId := st.nextRowId + 1 }
    dlts st.nextRowId (newRelayRow st relay dlts).fpid cleaned.Or_addresses
    cleaned.Exit_addresses cleaned.Dir_address

/-! ## The per-record reconciliation step as an effect trace -/

inductive DBEffect where
  | insertRelay : TorRelayDetails → String → DBEffect
  | syncAddr : String → Nat → String → String → DBEffect
  | updateRLS : Nat → String → DBEffect
deriving DecidableEq

def applyEffect (st : DBState) : DBEffect → DBState
  | .insertRelay relay dlts => addNewTorRelayToDB st relay dlts
  | .syncAddr role fpid dlts addr => updateIfNeededRelayAddressRLS st role fpid dlts addr
  | .updateRLS rowId dlts => updateTorRelayRLS st rowId dlts

def dbRun (st : DBState) (effs : List DBEffect) : DBState :=
  effs.foldl applyEffect st

/-- `updateRelayAddressesIfNeeded` from `tor-nodes.go`, as the trace of
address-synchronizer calls it issues: one per OR address, one per Exit
address, and one for the directory address when non-empty, each keyed by the
cached entry's `ID_NodeFingerprints`. -/
def updateRelayAddressesIfNeeded (relay : TorRelayDetails) (e : LrdEntry)
    (dlts : String) : List DBEffect :=
  relay.Or_addresses.map (DBEffect.syncAddr "Or" e.ID_NodeFingerprints dlts) ++
  relay.Exit_addresses.map (DBEffect.syncAddr "Ex" e.ID_NodeFingerprints dlts) ++
  (if 0 < relay.Dir_address.length then
    [DBEffect.syncAddr "Di" e.ID_NodeFingerprints dlts relay.Dir_address]
  else [])

/-- The database-backend body of `processTorResponse`'s per-relay loop (the
relay's contact has already been trimmed by the loop): compare against the
cached entry; on a match either do nothing (same or older snapshot timestamp)
or synchronize addresses and advance `RecordLastSeen`; otherwise insert a new
row.  Returns the resulting state together with the trace of writes. -/
def processRelay (dlts : String) (lrd : Lrd) (st : DBState)
    (relay : TorRelayDetails) : DBState × List DBEffect :=
  let e := lrdGet lrd relay.Fingerprint
  let effs : List DBEffect :=
    if recordsMatch relay e then
      if dlts = e.RecordLastSeen then []
      else if goStringLt dlts e.RecordLastSeen then []
      else updateRelayAddressesIfNeeded relay e dlts ++ [DBEffect.updateRLS e.id dlts]
    else [DBEffect.insertRelay relay dlts]
  (dbRun st effs, effs)

/-- `processTorResponse` from `tor-nodes.go` over a decoded relay list: apply
the flag filter, trim the contact (Go `strings.TrimSpace`, modelled by
`String.trim`), and run the per-record reconciliation. -/
def processTorResponse (matchFlags : List String) (dlts : String) (lrd : Lrd)
    (st : DBState) (relays : List TorRelayDetails) : DBState :=
  relays.foldl (fun acc relay =>
    if allStringsInSetMatch matchFlags relay.Flags then
      (processRelay dlts lrd acc { relay with Contact := relay.Contact.trim }).1
    else acc) st

/-! ## Rebuilding the Latest-State Cache -/

/-- Modelled from the spec: the denormalized cache entry loaded for a persisted
row by `initializeLatestRelayDataCache` (database layer, not in
`tor-nodes.go`): the comparable fields decoded from the dictionary back to
display text, plus row id, fingerprint id and `RecordLastSeen` (§3, §4.2). -/
def lrdEntryOfRow (d : Dict) (row : TorRelayRow) : LrdEntry :=
  { Fingerprint := dictText d row.fpid,
    Nickname := row.nick,
    Country := dictText d row.countryid,
    CityName := dictText d row.cityid,
    PlatformName := dictText d row.platformid,
    VersionName := dictText d row.versionid,
    ContactName := dictText d row.contactid,
    Last_changed_address_or_port := row.lastChanged,
    First_seen := row.firstSeen,
    ExitPolicy := dictText d row.exitp,
    ExitPolicySummary := dictText d row.exitps,
    ExitPolicyV6Summary := dictText d row.exitps6,
    RecordLastSeen := row.rls,
    id := row.id,
    ID_NodeFingerprints := row.fpid }

/-- The cache entry a relay's own freshly inserted row denormalizes back to
(used to state what `addNewTorRelayToDB` followed by a cache rebuild yields). -/
def lrdEntryOfRelay (relay : TorRelayDetails) (rowId fpId : Nat) (dlts : String) :
    LrdEntry :=
  { Fingerprint := relay.Fingerprint,
    Nickname := relay.Nickname,
    Country := relay.Country,
    CityName := relay.City_name,
    PlatformName := relay.Platform,
    VersionName := relay.Version,
    ContactName := relay.Contact,
    Last_changed_address_or_port := relay.Last_changed_address_or_port,
    First_seen := relay.First_seen,
    ExitPolicy := marshalStrListOpt relay.Exit_policy,
    ExitPolicySummary := jsonMarshal relay.Exit_policy_summary,
    ExitPolicyV6Summary := jsonMarshal relay.Exit_policy_v6_summary,
    RecordLastSeen := dlts,
    id := rowId,
    ID_NodeFingerprints := fpId }

/-- Modelled from the spec: `initializeLatestRelayDataCache` (database layer,
not in `tor-nodes.go`): per §4.2, replace the whole cache with, for every
persisted fingerprint, the entry of its most recent row not newer than `asOf`. -/
def rebuildLrd (st : DBState) (asOf : String) : Lrd :=
  st.relayRows.foldl (fun acc row =>
    if goStringLt asOf row.rls then acc
    else
      let fp := dictText st.dict row.fpid
      match mapLookup acc fp with
      | none => (fp, lrdEntryOfRow st.dict row) :: acc
      | some e =>
        if goStringLt e.RecordLastSeen row.rls then
          mapInsert acc fp (lrdEntryOfRow st.dict row)
        else acc) []

/-! ## The Batch Delta Extractor (`extractNewAndUpdatedRelays`) -/

/-- The `fp2id` construction of `extractNewAndUpdatedRelays`: a Go map from
fingerprint to index over the previous snapshot (later duplicates overwrite). -/
def buildFp2idAux : List (String × Nat) → Nat → List TorRelayDetails →
    List (String × Nat)
  | m, _, [] => m
  | m, i, r :: rest => buildFp2idAux (mapInsert m r.Fingerprint i) (i + 1) rest

def buildFp2id (old : List TorRelayDetails) : List (String × Nat) :=
  buildFp2idAux [] 0 old

/-- The per-record loop of `extractNewAndUpdatedRelays`: probe the map; on a
deep-equality match drop the record and delete its map key, otherwise keep it
(Go `reflect.DeepEqual` is structural equality of the decoded record). -/
def extractLoop (old : List TorRelayDetails) :
    List (String × Nat) → List TorRelayDetails → List TorRelayDetails
  | _, [] => []
  | m, n :: rest =>
    match mapLookup m n.Fingerprint with
    | some old_id =>
      if n == old.getD old_id emptyRelay then
        extractLoop old (mapErase m n.Fingerprint) rest
      else n :: extractLoop old m rest
    | none => n :: extractLoop old m rest

/-- `extractNewAndUpdatedRelays` from `tor-nodes.go`. -/
def extractNewAndUpdatedRelays (old new : List TorRelayDetails) :
    List TorRelayDetails :=
  extractLoop old (buildFp2id old) new

/-- Index and record of the last entry of `old` carrying the given fingerprint
(the entry `fp2id` resolves to, since later map writes overwrite earlier ones). -/
def lastIdxFind : List TorRelayDetails → String → Option (Nat × TorRelayDetails)
  | [], _ => none
  | r :: rest, fp =>
    match lastIdxFind rest fp with
    | some p => some (p.1 + 1, p.2)
    | none => if r.Fingerprint == fp then some (0, r) else none

/-- "The previous record with the same fingerprint" of claim C2. -/
def lastFingerprintMatch (old : List TorRelayDetails) (fp : String) :
    Option TorRelayDetails :=
  (lastIdxFind old fp).map (fun p => p.2)

/-- Whether claim C2 says a record of the current snapshot is forwarded: its
fingerprint is absent from the previous snapshot, or it is not deeply equal to
the previous record with the same fingerprint. -/
def keepInDelta (old : List TorRelayDetails) (n : TorRelayDetails) : Bool :=
  match lastFingerprintMatch old n.Fingerprint with
  | none => true
  | some o => !(n == o)

/-- Claim-side definition (written from the spec's words, for comparison with
`extractNewAndUpdatedRelays`): exactly those records of `new` whose
fingerprint is absent from `old` or which are not deeply equal to the previous
record with the same fingerprint. -/
def specDeltaC2 (old new : List TorRelayDetails) : List TorRelayDetails :=
  new.filter (keepInDelta old)

/-! ## The Cache Refresh Scheduler (`main`'s bulk loop) -/

inductive CacheAction where
  | fullInit : CacheAction
  | lrdRefreshOnly : CacheAction
deriving DecidableEq

/-- The per-file cache decision of `main`: `initializeCaches()` (all caches
rebuilt) when `num % ReInitCaches == 0`, otherwise only
`initializeLatestRelayDataCache` is re-run. -/
def cacheActionForFile (num reinitCaches : Nat) : CacheAction :=
  if num % reinitCaches = 0 then .fullInit else .lrdRefreshOnly

/-! ## Snapshot timestamp acquisition (`getConsensusDLTimestamp`) -/

/-- The components of a Go `time.Time` that the DLTS rendering reads. -/
structure GoTime where
  year : Nat
  month : Nat
  day : Nat
  hour : Nat
  minute : Nat
  second : Nat
deriving DecidableEq

def padNat (width n : Nat) : String :=
  let s := toString n
  String.mk (List.replicate (width - s.length) '0') ++ s

/-- The `fmt.Sprintf` of `getConsensusDLTimestamp`: zero-padded
`YYYYMMDDhhmmss`. -/
def formatDLTS (t : GoTime) : String :=
  padNat 4 t.year ++ padNat 2 t.month ++ padNat 2 t.day ++
  padNat 2 t.hour ++ padNat 2 t.minute ++ padNat 2 t.second

/-- `getTimeFormats` from `tor-nodes.go`: the custom format override alone if
supplied, otherwise the fixed ordered list (Go stdlib layout constants
inlined). -/
def getTimeFormats (consensusDLT_fmt : String) : List String :=
  if 0 < consensusDLT_fmt.length then [consensusDLT_fmt]
  else
    ["2006-01-02_15:04:05", "2006-01-02_15:04", "20060102150405", "200601021504",
     "2006-01-02-15-04-05", "2006-01-02-15-04",
     "2006-01-02T15:04:05Z07:00", "2006-01-02T15:04:05.999999999Z07:00",
     "Mon Jan _2 15:04:05 2006", "Mon Jan _2 15:04:05 MST 2006",
     "02 Jan 06 15:04 MST", "02 Jan 06 15:04 -0700",
     "Monday, 02-Jan-06 15:04:05 MST", "Mon, 02 Jan 2006 15:04:05 MST",
     "Mon, 02 Jan 2006 15:04:05 -0700", "Mon Jan 02 15:04:05 -0700 2006"]

/-- `matchTimestampToFormats` from `tor-nodes.go`: the first candidate/format
pair that parses wins (candidates in the outer loop, formats in the inner).
`parse` abstracts Go `time.Parse (layout, value)`. -/
def matchTimestampToFormats (parse : String → String → Option GoTime)
    (ts_matches formats : List String) : Option GoTime :=
  ts_matches.findSome? (fun ts => formats.findSome? (fun f => parse f ts))

/-- The candidate timestamp list `getConsensusDLTimestamp` assembles: the
`-consensus-download-time` override when non-empty, replaced by the regex
extraction result (`extracted` models `re.FindAllString(filename, -1)`) when
filename extraction is on. -/
def candidateTimestamps (extractDLTfromFilename : Bool) (consensusDLT : String)
    (extracted : List String) : List String :=
  let ts0 := if 0 < consensusDLT.length then [consensusDLT] else []
  if extractDLTfromFilename then extracted else ts0

/-- `getConsensusDLTimestamp` from `tor-nodes.go`.  Without an override and
without filename extraction the system clock (`now`) is used; otherwise the
candidates are matched against the format list, and a failure to parse is
`log.Fatalln` — modelled as `Except.error` carrying the unmatched candidates. -/
def getConsensusDLTimestamp (extractDLTfromFilename : Bool)
    (consensusDLT consensusDLT_fmt : String) (extracted : List String)
    (now : GoTime) (parse : String → String → Option GoTime) :
    Except (List String) String :=
  if !extractDLTfromFilename && consensusDLT.length == 0 then .ok (formatDLTS now)
  else
    let ts_matches := candidateTimestamps extractDLTfromFilename consensusDLT extracted
    let formats := getTimeFormats consensusDLT_fmt
    match matchTimestampToFormats parse ts_matches formats with
    | none => .error ts_matches
    | some t => .ok (formatDLTS t)

/-! ## Concrete inputs used by the witness theorems -/

def wDltsOld : String := "20230101000000"

def wDltsNew : String := "20230102000000"

def wRelayA : TorRelayDetails :=
  { emptyRelay with Fingerprint := "FPA", Nickname := "alpha",
                    Contact := "Admin@Example.ORG" }

def wEntryA : LrdEntry :=
  lrdEntryOfRelay { wRelayA with Nickname := "beta" } 1 1 wDltsOld

def wLrdA : Lrd := [("FPA", wEntryA)]

def wRelayB : TorRelayDetails :=
  { emptyRelay with Fingerprint := "FPB", Nickname := "nodeB",
                    Or_addresses := ["10.0.0.1:9001", "10.0.0.2:9001"],
                    Exit_addresses := ["10.0.0.3"],
                    Dir_address := "10.0.0.1:9030",
                    Exit_policy := some ["reject *:*"] }

def wEntryB : LrdEntry := lrdEntryOfRelay wRelayB 7 3 wDltsNew

def wLrdB : Lrd := [("FPB", wEntryB)]

def wEntryB1 : LrdEntry := lrdEntryOfRelay wRelayB 7 3 wDltsOld

def wLrdB1 : Lrd := [("FPB", wEntryB1)]

def wRelayC : TorRelayDetails :=
  { emptyRelay with Fingerprint := "FPC", Nickname := "nodeC",
                    Contact := "OPERATOR@site.net" }

def wEntryC : LrdEntry :=
  lrdEntryOfRelay { wRelayC with Contact := "operator@SITE.net" } 2 2 wDltsOld

def wRelayD : TorRelayDetails :=
  { emptyRelay with Fingerprint := "FPD", Nickname := "nodeD" }

def wRelayE : TorRelayDetails :=
  { emptyRelay with Fingerprint := "FPE", Nickname := "nodeE" }

/-! ## Basic facts about the change detector -/

theorem recordsMatch_eq_true_iff (relay : TorRelayDetails) (e : LrdEntry) :
    recordsMatch relay e = true ↔
      (relay.Nickname = e.Nickname ∧ relay.Country = e.Country ∧
       relay.City_name = e.CityName ∧ relay.Platform = e.PlatformName ∧
       relay.Version = e.VersionName ∧
       goToLower relay.Contact = goToLower e.ContactName ∧
       relay.Last_changed_address_or_port = e.Last_changed_address_or_port ∧
       relay.First_seen = e.First_seen ∧
       marshalStrListOpt relay.Exit_policy = e.ExitPolicy ∧
       jsonMarshal relay.Exit_policy_summary = e.ExitPolicySummary ∧
       jsonMarshal relay.Exit_policy_v6_summary = e.ExitPolicyV6Summary) := by
  simp [recordsMatch, Bool.and_eq_true, beq_iff_eq, and_assoc]

theorem marshalStrListOpt_ne_empty (x : Option (List String)) :
    marshalStrListOpt x ≠ "" := by
  cases x with
  | none => simp [marshalStrListOpt, optStrListToJson, jsonMarshal]
  | some xs =>
    intro h
    have h2 := congrArg String.length h
    have e1 : "[".length = 1 := rfl
    have e2 : "]".length = 1 := rfl
    have e0 : "".length = 0 := rfl
    simp only [marshalStrListOpt, optStrListToJson, jsonMarshal,
      String.length_append, e1, e2, e0] at h2
    omega

theorem recordsMatch_empty_false (relay : TorRelayDetails) :
    recordsMatch relay emptyLrdEntry = false := by
  cases hr : recordsMatch relay emptyLrdEntry with
  | false => rfl
  | true =>
    exfalso
    have h2 := (recordsMatch_eq_true_iff relay emptyLrdEntry).mp hr
    exact marshalStrListOpt_ne_empty relay.Exit_policy h2.2.2.2.2.2.2.2.2.1

theorem recordsMatch_self_entry (relay : TorRelayDetails) (rowId fpId : Nat)
    (dlts : String) :
    recordsMatch relay (lrdEntryOfRelay relay rowId fpId dlts) = true := by
  rw [recordsMatch_eq_true_iff]
  simp [lrdEntryOfRelay]

theorem lrdGet_eq_of_lookup {lrd : Lrd} {fp : String} {e : LrdEntry}
    (h : mapLookup lrd fp = some e) : lrdGet lrd fp = e := by
  simp [lrdGet, h]

theorem lrdGet_eq_of_none {lrd : Lrd} {fp : String}
    (h : mapLookup lrd fp = none) : lrdGet lrd fp = emptyLrdEntry := by
  simp [lrdGet, h]

/-! ## Facts about Go string comparison -/

theorem goBytesLt_irrefl (l : List Char) : goBytesLt l l = false := by
  induction l with
  | nil => rfl
  | cons a as ih => simp [goBytesLt, ih]

theorem goStringLt_irrefl (s : String) : goStringLt s s = false :=
  goBytesLt_irrefl s.data

theorem goStringLt_ne {a b : String} (h : goStringLt a b = true) : a ≠ b := by
  intro hab
  rw [hab, goStringLt_irrefl] at h
  cases h

theorem goBytesLt_asymm : ∀ (l1 l2 : List Char),
    goBytesLt l1 l2 = true → goBytesLt l2 l1 = false := by
  intro l1
  induction l1 with
  | nil =>
    intro l2 h
    cases l2 with
    | nil => simp [goBytesLt] at h
    | cons b bs => rfl
  | cons a as ih =>
    intro l2 h
    cases l2 with
    | nil => simp [goBytesLt] at h
    | cons b bs =>
      by_cases hab : a.toNat < b.toNat
      · have hba : ¬ b.toNat < a.toNat := Nat.lt_asymm hab
        simp [goBytesLt, hab, hba]
      · by_cases hba : b.toNat < a.toNat
        · simp [goBytesLt, hab, hba] at h
        · have h2 : goBytesLt as bs = true := by
            simpa [goBytesLt, hab, hba] using h
          simp [goBytesLt, hab, hba, ih bs h2]

theorem goStringLt_asymm {a b : String} (h : goStringLt a b = true) :
    goStringLt b a = false :=
  goBytesLt_asymm a.data b.data h

/-! ## Claim C9 -/

/-- C9: for every cached entry and incoming record agreeing on all comparable
fields except that the contact strings differ only in letter case, the two
records match: `recordsMatch` treats the contact field as equal. -/
theorem recordsMatch_contact_case_insensitive (relay : TorRelayDetails) (e : LrdEntry)
    (h1 : relay.Nickname = e.Nickname) (h2 : relay.Country = e.Country)
    (h3 : relay.City_name = e.CityName) (h4 : relay.Platform = e.PlatformName)
    (h5 : relay.Version = e.VersionName)
    (h6 : goToLower relay.Contact = goToLower e.ContactName)
    (h7 : relay.Last_changed_address_or_port = e.Last_changed_address_or_port)
    (h8 : relay.First_seen = e.First_seen)
    (h9 : marshalStrListOpt relay.Exit_policy = e.ExitPolicy)
    (h10 : jsonMarshal relay.Exit_policy_summary = e.ExitPolicySummary)
    (h11 : jsonMarshal relay.Exit_policy_v6_summary = e.ExitPolicyV6Summary) :
    recordsMatch relay e = true := by
  rw [recordsMatch_eq_true_iff]
  exact ⟨h1, h2, h3, h4, h5, h6, h7, h8, h9, h10, h11⟩

theorem recordsMatch_contact_case_insensitive_witness :
    wRelayC.Contact ≠ wEntryC.ContactName ∧ recordsMatch wRelayC wEntryC = true :=
  ⟨by decide,
   recordsMatch_contact_case_insensitive wRelayC wEntryC rfl rfl rfl rfl rfl
     (by decide) rfl rfl rfl rfl rfl⟩

/-! ## Claim C7 -/

/-- C7: in a multi-file run with configured interval `K ≥ 1`, the full cache
initialization runs exactly at the 0-based file indices with `i % K = 0`
(otherwise only the latest-state data is refreshed), and `K = 1` degenerates
to a full rebuild on every snapshot. -/
theorem cacheActionForFile_spec (i K : Nat) (hK : 1 ≤ K) :
    (cacheActionForFile i K = CacheAction.fullInit ↔ i % K = 0) ∧
    (K = 1 → cacheActionForFile i K = CacheAction.fullInit) := by
  constructor
  · by_cases h : i % K = 0 <;> simp [cacheActionForFile, h]
  · intro h1
    subst h1
    simp [cacheActionForFile, Nat.mod_one]

theorem cacheActionForFile_spec_witness :
    1 ≤ 3 ∧
    (cacheActionForFile 6 3 = CacheAction.fullInit ↔ 6 % 3 = 0) ∧
    cacheActionForFile 5 1 = CacheAction.fullInit :=
  ⟨by decide, (cacheActionForFile_spec 6 3 (by decide)).1,
   (cacheActionForFile_spec 5 1 (by decide)).2 rfl⟩

/-! ## Claim C1 -/

/-- C1: a cached entry and an incoming record that differ in exactly one
comparable field (each field compared as `recordsMatch` compares it: contact
up to letter case, policy blobs in marshalled form) never match —
`recordsMatch` returns `false`, so the reconciliation step takes the insert
path and never treats the record as unchanged. -/
theorem recordsMatch_change_complete (relay : TorRelayDetails) (e : LrdEntry)
    (hdiff : (comparableFieldEqs relay e).count false = 1) :
    recordsMatch relay e = false ∧
    ∀ (dlts : String) (lrd : Lrd) (st : DBState),
      mapLookup lrd relay.Fingerprint = some e →
      (processRelay dlts lrd st relay).2 = [DBEffect.insertRelay relay dlts] := by
  have hfalse : recordsMatch relay e = false := by
    cases hr : recordsMatch relay e with
    | false => rfl
    | true =>
      exfalso
      obtain ⟨h1, h2, h3, h4, h5, h6, h7, h8, h9, h10, h11⟩ :=
        (recordsMatch_eq_true_iff relay e).mp hr
      simp [comparableFieldEqs, h1, h2, h3, h4, h5, h6, h7, h8, h9, h10, h11,
        List.count_cons] at hdiff
  refine ⟨hfalse, ?_⟩
  intro dlts lrd st he
  simp [processRelay, lrdGet_eq_of_lookup he, hfalse]

theorem recordsMatch_change_complete_witness :
    (comparableFieldEqs wRelayA wEntryA).count false = 1 ∧
    recordsMatch wRelayA wEntryA = false ∧
    (processRelay wDltsNew wLrdA emptyDB wRelayA).2 =
      [DBEffect.insertRelay wRelayA wDltsNew] :=
  ⟨by decide,
   (recordsMatch_change_complete wRelayA wEntryA (by decide)).1,
   (recordsMatch_change_complete wRelayA wEntryA (by decide)).2 wDltsNew wLrdA
     emptyDB (by decide)⟩

/-! ## Facts about the value dictionary -/

theorem dictText_zero (d : Dict) : dictText d 0 = "" := rfl

theorem dictText_append (d tl : Dict) (i : Nat) (h : i ≤ d.length) :
    dictText (d ++ tl) i = dictText d i := by
  cases i with
  | zero => rfl
  | succ j =>
    have hj : j < d.length := Nat.lt_of_succ_le h
    simp [dictText, List.get?_eq_getElem?, List.getElem?_append_left hj]

theorem dictFind_spec : ∀ (d : Dict) (c t : String) (j : Nat),
    dictFind d c t = some j → ∃ e, List.get? d j = some e ∧ e.2 = t := by
  intro d
  induction d with
  | nil => intro c t j h; cases h
  | cons hd rest ih =>
    intro c t j h
    by_cases hc : hd.1 = c ∧ hd.2 = t
    · rw [dictFind, if_pos hc] at h
      cases h
      exact ⟨hd, rfl, hc.2⟩
    · rw [dictFind, if_neg hc] at h
      obtain ⟨j0, hj0, hj0e⟩ := Option.map_eq_some'.mp h
      obtain ⟨e, he, het⟩ := ih c t j0 hj0
      refine ⟨e, ?_, het⟩
      rw [← hj0e]
      simpa using he

theorem value2id_resolves (d : Dict) (c t : String) :
    dictText (value2id d c t).2 (value2id d c t).1 = t ∧
    (value2id d c t).1 ≤ (value2id d c t).2.length := by
  unfold value2id
  by_cases ht : t = ""
  · subst ht
    simp [dictText]
  · rw [if_neg ht]
    cases hf : dictFind d c t with
    | some j =>
      obtain ⟨e, hg, he⟩ := dictFind_spec d c t j hf
      rw [List.get?_eq_getElem?] at hg
      have hj : j < d.length := (List.getElem?_eq_some.mp hg).choose
      constructor
      · simp [dictText, hg, he]
      · exact Nat.succ_le_of_lt hj
    | none =>
      constructor
      · simp [dictText, List.get?_eq_getElem?, List.getElem?_concat_length]
      · simp

theorem value2id_extends (d : Dict) (c t : String) :
    ∃ tl, (value2id d c t).2 = d ++ tl := by
  unfold value2id
  by_cases ht : t = ""
  · exact ⟨[], by simp [ht]⟩
  · rw [if_neg ht]
    cases hf : dictFind d c t with
    | some j => exact ⟨[], by simp⟩
    | none => exact ⟨[(c, t)], rfl⟩

theorem resolveAll_spec : ∀ (pairs : List (String × String)) (d : Dict),
    (∃ tl, (resolveAll d pairs).2 = d ++ tl) ∧
    ∀ i, i < pairs.length →
      dictText (resolveAll d pairs).2 ((resolveAll d pairs).1.getD i 0) =
        (pairs.getD i ("", "")).2 := by
  intro pairs
  induction pairs with
  | nil =>
    intro d
    refine ⟨⟨[], by simp [resolveAll]⟩, ?_⟩
    intro i h
    simp at h
  | cons p rest ih =>
    intro d
    obtain ⟨c, t⟩ := p
    obtain ⟨hres1, hres2⟩ := value2id_resolves d c t
    obtain ⟨tlr, hext⟩ := value2id_extends d c t
    obtain ⟨⟨tl2, hrest2⟩, hresti⟩ := ih (value2id d c t).2
    have hall2 : (resolveAll d ((c, t) :: rest)).2 =
        (resolveAll (value2id d c t).2 rest).2 := by
      simp [resolveAll]
    have hall1 : (resolveAll d ((c, t) :: rest)).1 =
        (value2id d c t).1 :: (resolveAll (value2id d c t).2 rest).1 := by
      simp [resolveAll]
    constructor
    · refine ⟨tlr ++ tl2, ?_⟩
      rw [hall2, hrest2, hext, List.append_assoc]
    · intro i hi
      cases i with
      | zero =>
        rw [hall2, hall1]
        simp only [List.getD_cons_zero]
        rw [hrest2, dictText_append _ _ _ hres2, hres1]
      | succ j =>
        rw [hall2, hall1]
        simp only [List.getD_cons_succ]
        have hj : j < rest.length := by simpa using Nat.lt_of_succ_lt_succ hi
        simpa using hresti j hj

/-! ## Frame facts about address writes -/

theorem addToIP_frame (st : DBState) (role : String) (fpid : Nat)
    (rti rls addr : String) :
    (addToIP st role fpid rti rls addr).dict = st.dict ∧
    (addToIP st role fpid rti rls addr).relayRows = st.relayRows ∧
    (addToIP st role fpid rti rls addr).nextRowId = st.nextRowId := by
  unfold addToIP
  split <;> exact ⟨rfl, rfl, rfl⟩

theorem foldl_addToIP_frame (role : String) (fpid : Nat) (dlts : String) :
    ∀ (l : List String) (st : DBState),
      ((l.foldl (fun s a => addToIP s role fpid dlts dlts a) st).dict = st.dict ∧
       (l.foldl (fun s a => addToIP s role fpid dlts dlts a) st).relayRows = st.relayRows ∧
       (l.foldl (fun s a => addToIP s role fpid dlts dlts a) st).nextRowId = st.nextRowId) := by
  intro l
  induction l with
  | nil => intro st; exact ⟨rfl, rfl, rfl⟩
  | cons a as ih =>
    intro st
    have h1 := addToIP_frame st role fpid dlts dlts a
    have h2 := ih (addToIP st role fpid dlts dlts a)
    simp only [List.foldl_cons]
    exact ⟨h2.1.trans h1.1, h2.2.1.trans h1.2.1, h2.2.2.trans h1.2.2⟩

theorem addNewRelayAddresses_frame (st : DBState) (dlts : String)
    (lastID fpid : Nat) (ors exits : List String) (dir : String) :
    (addNewRelayAddresses st dlts lastID fpid ors exits dir).dict = st.dict ∧
    (addNewRelayAddresses st dlts lastID fpid ors exits dir).relayRows = st.relayRows ∧
    (addNewRelayAddresses st dlts lastID fpid ors exits dir).nextRowId = st.nextRowId := by
  unfold addNewRelayAddresses
  have h1 := foldl_addToIP_frame "Or" fpid dlts ors st
  have h2 := foldl_addToIP_frame "Ex" fpid dlts exits
    (ors.foldl (fun s a => addToIP s "Or" fpid dlts dlts a) st)
  split
  · have h3 := addToIP_frame
      (exits.foldl (fun s a => addToIP s "Ex" fpid dlts dlts a)
        (ors.foldl (fun s a => addToIP s "Or" fpid dlts dlts a) st))
      "Di" fpid dlts dlts dir
    exact ⟨(h3.1.trans h2.1).trans h1.1, (h3.2.1.trans h2.2.1).trans h1.2.1,
      (h3.2.2.trans h2.2.2).trans h1.2.2⟩
  · exact ⟨h2.1.trans h1.1, h2.2.1.trans h1.2.1, h2.2.2.trans h1.2.2⟩

/-! ## What inserting a new relay row does -/

theorem addNewTorRelayToDB_spec (st : DBState) (relay : TorRelayDetails)
    (dlts : String) :
    ∃ row : TorRelayRow,
      (addNewTorRelayToDB st relay dlts).relayRows = st.relayRows ++ [row] ∧
      lrdEntryOfRow (addNewTorRelayToDB st relay dlts).dict row =
        lrdEntryOfRelay relay st.nextRowId row.fpid dlts ∧
      row.id = st.nextRowId ∧
      row.nick = relay.Nickname ∧
      row.lastChanged = relay.Last_changed_address_or_port ∧
      row.firstSeen = relay.First_seen ∧
      row.rti = dlts ∧ row.rls = dlts ∧
      row.flags = relay.Flags ∧
      row.jsRelay = cleanupRelayStruct relay ∧
      (addNewTorRelayToDB st relay dlts).nextRowId = st.nextRowId + 1 := by
  obtain ⟨⟨tl, htl⟩, hres⟩ := resolveAll_spec (relayDictTexts relay) st.dict
  have hlen : (relayDictTexts relay).length = 10 := by simp [relayDictTexts]
  have h0 := hres 0 (by omega)
  have h1 := hres 1 (by omega)
  have h2 := hres 2 (by omega)
  have h3 := hres 3 (by omega)
  have h4 := hres 4 (by omega)
  have h5 := hres 5 (by omega)
  have h6 := hres 6 (by omega)
  have h7 := hres 7 (by omega)
  have h8 := hres 8 (by omega)
  have h9 := hres 9 (by omega)
  simp only [relayDictTexts, List.getD_cons_zero, List.getD_cons_succ]
    at h0 h1 h2 h3 h4 h5 h6 h7 h8 h9
  have hframe := addNewRelayAddresses_frame
    { st with dict := (resolveAll st.dict (relayDictTexts relay)).2,
              relayRows := st.relayRows ++ [newRelayRow st relay dlts],
              nextRowId := st.nextRowId + 1 }
    dlts st.nextRowId (newRelayRow st relay dlts).fpid
    (cleanupRelayStruct relay).Or_addresses (cleanupRelayStruct relay).Exit_addresses
    (cleanupRelayStruct relay).Dir_address
  have hdef : addNewTorRelayToDB st relay dlts = addNewRelayAddresses
      { st with dict := (resolveAll st.dict (relayDictTexts relay)).2,
                relayRows := st.relayRows ++ [newRelayRow st relay dlts],
                nextRowId := st.nextRowId + 1 }
      dlts st.nextRowId (newRelayRow st relay dlts).fpid
      (cleanupRelayStruct relay).Or_addresses (cleanupRelayStruct relay).Exit_addresses
      (cleanupRelayStruct relay).Dir_address := rfl
  refine ⟨newRelayRow st relay dlts, ?_, ?_, rfl, rfl, rfl, rfl, rfl, rfl, rfl, rfl, ?_⟩
  · rw [hdef, hframe.2.1]
  · rw [hdef, hframe.1]
    show lrdEntryOfRow (resolveAll st.dict (relayDictTexts relay)).2
      (newRelayRow st relay dlts) = _
    simp only [lrdEntryOfRow, lrdEntryOfRelay, newRelayRow]
    simp only [List.getD_eq_getElem?_getD] at h0 h1 h2 h3 h4 h5 h6 h7 h8 h9
    simp [relayDictTexts, h0, h1, h2, h3, h4, h5, h6, h7, h8, h9]
  · rw [hdef, hframe.2.2]

/-! ## Claim C10 -/

/-- C10: `addNewTorRelayToDB` passes the relay's original nickname,
`Last_changed_address_or_port` and `First_seen` to the row insert and sets
both `RecordTimeInserted` and `RecordLastSeen` to the batch `dlts`, even
though `cleanupRelayStruct` blanks those fields (with the other
dictionary-backed fields and the fingerprint) on the struct serialized into
the row's blob; fields not listed in `cleanupRelayStruct` are unchanged by it. -/
theorem addNewTorRelayToDB_preserves_fields (st : DBState)
    (relay : TorRelayDetails) (dlts : String) :
    (∃ row : TorRelayRow,
      (addNewTorRelayToDB st relay dlts).relayRows = st.relayRows ++ [row] ∧
      row.nick = relay.Nickname ∧
      row.lastChanged = relay.Last_changed_address_or_port ∧
      row.firstSeen = relay.First_seen ∧
      row.rti = dlts ∧ row.rls = dlts ∧
      row.jsRelay = cleanupRelayStruct relay) ∧
    (cleanupRelayStruct relay).Nickname = "" ∧
    (cleanupRelayStruct relay).Country = "" ∧
    (cleanupRelayStruct relay).Country_name = "" ∧
    (cleanupRelayStruct relay).Region_name = "" ∧
    (cleanupRelayStruct relay).City_name = "" ∧
    (cleanupRelayStruct relay).Platform = "" ∧
    (cleanupRelayStruct relay).Version = "" ∧
    (cleanupRelayStruct relay).Contact = "" ∧
    (cleanupRelayStruct relay).Last_changed_address_or_port = "" ∧
    (cleanupRelayStruct relay).First_seen = "" ∧
    (cleanupRelayStruct relay).Fingerprint = "" ∧
    (cleanupRelayStruct relay).Exit_policy = none ∧
    (cleanupRelayStruct relay).Exit_policy_summary = Json.null ∧
    (cleanupRelayStruct relay).Exit_policy_v6_summary = Json.null ∧
    (cleanupRelayStruct relay).Or_addresses = relay.Or_addresses ∧
    (cleanupRelayStruct relay).Exit_addresses = relay.Exit_addresses ∧
    (cleanupRelayStruct relay).Dir_address = relay.Dir_address ∧
    (cleanupRelayStruct relay).Last_seen = relay.Last_seen ∧
    (cleanupRelayStruct relay).Running = relay.Running ∧
    (cleanupRelayStruct relay).Hibernating = relay.Hibernating ∧
    (cleanupRelayStruct relay).Flags = relay.Flags ∧
    (cleanupRelayStruct relay).Latitude = relay.Latitude ∧
    (cleanupRelayStruct relay).Longitude = relay.Longitude ∧
    (cleanupRelayStruct relay).As = relay.As ∧
    (cleanupRelayStruct relay).As_number = relay.As_number ∧
    (cleanupRelayStruct relay).As_name = relay.As_name ∧
    (cleanupRelayStruct relay).Consensus_weight = relay.Consensus_weight ∧
    (cleanupRelayStruct relay).Host_name = relay.Host_name ∧
    (cleanupRelayStruct relay).Verified_host_names = relay.Verified_host_names ∧
    (cleanupRelayStruct relay).Unverified_host_names = relay.Unverified_host_names ∧
    (cleanupRelayStruct relay).Last_restarted = relay.Last_restarted ∧
    (cleanupRelayStruct relay).Bandwidth_rate = relay.Bandwidth_rate ∧
    (cleanupRelayStruct relay).Bandwidth_burst = relay.Bandwidth_burst ∧
    (cleanupRelayStruct relay).Observed_bandwidth = relay.Observed_bandwidth ∧
    (cleanupRelayStruct relay).Advertised_bandwidth = relay.Advertised_bandwidth ∧
    (cleanupRelayStruct relay).Recommended_version = relay.Recommended_version ∧
    (cleanupRelayStruct relay).Version_status = relay.Version_status ∧
    (cleanupRelayStruct relay).Effective_family = relay.Effective_family ∧
    (cleanupRelayStruct relay).Alleged_family = relay.Alleged_family ∧
    (cleanupRelayStruct relay).Indirect_family = relay.Indirect_family ∧
    (cleanupRelayStruct relay).Consensus_weight_fraction = relay.Consensus_weight_fraction ∧
    (cleanupRelayStruct relay).Guard_probability = relay.Guard_probability ∧
    (cleanupRelayStruct relay).Middle_probability = relay.Middle_probability ∧
    (cleanupRelayStruct relay).Exit_probability = relay.Exit_probability ∧
    (cleanupRelayStruct relay).Measured = relay.Measured ∧
    (cleanupRelayStruct relay).Unreachable_or_addresses = relay.Unreachable_or_addresses := by
  obtain ⟨row, hrows, hentry, hid, hnick, hlc, hfs, hrti, hrls, hflags, hjs, hnext⟩ :=
    addNewTorRelayToDB_spec st relay dlts
  exact ⟨⟨row, hrows, hnick, hlc, hfs, hrti, hrls, hjs⟩,
    rfl, rfl, rfl, rfl, rfl, rfl, rfl, rfl, rfl, rfl, rfl, rfl, rfl, rfl,
    rfl, rfl, rfl, rfl, rfl, rfl, rfl, rfl, rfl, rfl, rfl, rfl, rfl, rfl,
    rfl, rfl, rfl, rfl, rfl, rfl, rfl, rfl, rfl, rfl, rfl, rfl, rfl, rfl,
    rfl, rfl, rfl, rfl⟩

/-! ## Claim C6 -/

/-- C6: an incoming record whose fingerprint is absent from the Latest-State
Cache never matches the (empty) entry — even an all-empty record, since the
marshalled policy blob is never the empty string — so the reconciliation step
always takes the insert path and persists a new row. -/
theorem processRelay_new_insert (relay : TorRelayDetails) (lrd : Lrd)
    (st : DBState) (dlts : String)
    (he : mapLookup lrd relay.Fingerprint = none) :
    recordsMatch relay (lrdGet lrd relay.Fingerprint) = false ∧
    (processRelay dlts lrd st relay).2 = [DBEffect.insertRelay relay dlts] ∧
    (processRelay dlts lrd st relay).1.relayRows.length =
      st.relayRows.length + 1 := by
  have hg : lrdGet lrd relay.Fingerprint = emptyLrdEntry := lrdGet_eq_of_none he
  have hf : recordsMatch relay (lrdGet lrd relay.Fingerprint) = false := by
    rw [hg]; exact recordsMatch_empty_false relay
  refine ⟨hf, ?_, ?_⟩
  · simp [processRelay, hg, recordsMatch_empty_false]
  · obtain ⟨row, hrows, _⟩ := addNewTorRelayToDB_spec st relay dlts
    have hrun : (processRelay dlts lrd st relay).1 = addNewTorRelayToDB st relay dlts := by
      simp [processRelay, hg, recordsMatch_empty_false, dbRun, applyEffect]
    rw [hrun, hrows]
    simp

theorem processRelay_new_insert_witness :
    mapLookup ([] : Lrd) emptyRelay.Fingerprint = none ∧
    recordsMatch emptyRelay (lrdGet [] emptyRelay.Fingerprint) = false ∧
    (processRelay wDltsOld [] emptyDB emptyRelay).2 =
      [DBEffect.insertRelay emptyRelay wDltsOld] ∧
    (processRelay wDltsOld [] emptyDB emptyRelay).1.relayRows.length =
      emptyDB.relayRows.length + 1 :=
  ⟨rfl,
   (processRelay_new_insert emptyRelay [] emptyDB wDltsOld rfl).1,
   (processRelay_new_insert emptyRelay [] emptyDB wDltsOld rfl).2.1,
   (processRelay_new_insert emptyRelay [] emptyDB wDltsOld rfl).2.2⟩

/-! ## Claim C3 -/

/-- C3: when the comparable fields of an incoming record all match its cached
entry and the snapshot timestamp is strictly earlier than the cached
`RecordLastSeen`, the reconciliation step performs no write at all: no effect
is issued and the state (rows, address history, freshness marker) is exactly
unchanged. -/
theorem processRelay_stale_noop (relay : TorRelayDetails) (e : LrdEntry)
    (lrd : Lrd) (st : DBState) (dlts : String)
    (he : mapLookup lrd relay.Fingerprint = some e)
    (hmatch : recordsMatch relay e = true)
    (hstale : goStringLt dlts e.RecordLastSeen = true) :
    processRelay dlts lrd st relay = (st, []) := by
  have hg := lrdGet_eq_of_lookup he
  have hne : dlts ≠ e.RecordLastSeen := goStringLt_ne hstale
  simp [processRelay, hg, hmatch, hne, hstale, dbRun]

theorem processRelay_stale_noop_witness :
    mapLookup wLrdB wRelayB.Fingerprint = some wEntryB ∧
    recordsMatch wRelayB wEntryB = true ∧
    goStringLt wDltsOld wEntryB.RecordLastSeen = true ∧
    processRelay wDltsOld wLrdB emptyDB wRelayB = (emptyDB, []) :=
  ⟨by decide, by decide, by decide,
   processRelay_stale_noop wRelayB wEntryB wLrdB emptyDB wDltsOld (by decide)
     (by decide) (by decide)⟩

/-! ## Frame facts about the freshness-only path -/

theorem applyEffect_syncAddr_relayRows (st : DBState) (role : String)
    (fpid : Nat) (d a : String) :
    (applyEffect st (DBEffect.syncAddr role fpid d a)).relayRows = st.relayRows := by
  show (updateIfNeededRelayAddressRLS st role fpid d a).relayRows = st.relayRows
  exact (addToIP_frame st role fpid d d a).2.1

theorem dbRun_syncAddrs_relayRows : ∀ (l : List DBEffect) (st : DBState),
    (∀ eff ∈ l, ∃ role fpid d a, eff = DBEffect.syncAddr role fpid d a) →
    (dbRun st l).relayRows = st.relayRows := by
  intro l
  induction l with
  | nil => intro st _; rfl
  | cons eff rest ih =>
    intro st hall
    obtain ⟨role, fpid, d, a, heff⟩ := hall eff (List.mem_cons_self _ _)
    have h1 : (applyEffect st eff).relayRows = st.relayRows := by
      rw [heff]; exact applyEffect_syncAddr_relayRows st role fpid d a
    have h2 := ih (applyEffect st eff)
      (fun x hx => hall x (List.mem_cons_of_mem _ hx))
    show (dbRun (applyEffect st eff) rest).relayRows = st.relayRows
    exact h2.trans h1

theorem updateRelayAddressesIfNeeded_all_sync (relay : TorRelayDetails)
    (e : LrdEntry) (dlts : String) :
    ∀ eff ∈ updateRelayAddressesIfNeeded relay e dlts,
      ∃ role fpid d a, eff = DBEffect.syncAddr role fpid d a := by
  intro eff heff
  rw [updateRelayAddressesIfNeeded] at heff
  rcases List.mem_append.mp heff with h12 | h3
  · rcases List.mem_append.mp h12 with h1 | h2
    · obtain ⟨a, _, ha⟩ := List.mem_map.mp h1
      exact ⟨_, _, _, _, ha.symm⟩
    · obtain ⟨a, _, ha⟩ := List.mem_map.mp h2
      exact ⟨_, _, _, _, ha.symm⟩
  · by_cases hd : 0 < relay.Dir_address.length
    · rw [if_pos hd] at h3
      simp at h3
      exact ⟨_, _, _, _, h3⟩
    · rw [if_neg hd] at h3
      simp at h3

/-! ## Claim C5 -/

/-- C5: when the comparable fields all match the cached entry and the
snapshot timestamp is strictly later than the cached `RecordLastSeen`, the
step first issues one address-synchronizer call per OR address, per Exit
address, and for the directory address when non-empty, then advances the
entity row's `RecordLastSeen` to `dlts`; no new entity row is created (the
row list is the old one with only that row's freshness marker advanced). -/
theorem processRelay_freshness_update (relay : TorRelayDetails) (e : LrdEntry)
    (lrd : Lrd) (st : DBState) (dlts : String)
    (he : mapLookup lrd relay.Fingerprint = some e)
    (hmatch : recordsMatch relay e = true)
    (hlater : goStringLt e.RecordLastSeen dlts = true) :
    (processRelay dlts lrd st relay).2 =
      relay.Or_addresses.map (DBEffect.syncAddr "Or" e.ID_NodeFingerprints dlts) ++
      relay.Exit_addresses.map (DBEffect.syncAddr "Ex" e.ID_NodeFingerprints dlts) ++
      (if 0 < relay.Dir_address.length then
        [DBEffect.syncAddr "Di" e.ID_NodeFingerprints dlts relay.Dir_address]
      else []) ++
      [DBEffect.updateRLS e.id dlts] ∧
    (processRelay dlts lrd st relay).1.relayRows =
      st.relayRows.map (fun row =>
        if row.id = e.id then { row with rls := dlts } else row) := by
  have hg := lrdGet_eq_of_lookup he
  have hne : dlts ≠ e.RecordLastSeen := Ne.symm (goStringLt_ne hlater)
  have hnlt : goStringLt dlts e.RecordLastSeen = false := goStringLt_asymm hlater
  constructor
  · simp [processRelay, hg, hmatch, hne, hnlt, updateRelayAddressesIfNeeded]
  · have hst : (processRelay dlts lrd st relay).1 =
        dbRun st (updateRelayAddressesIfNeeded relay e dlts ++
          [DBEffect.updateRLS e.id dlts]) := by
      simp [processRelay, hg, hmatch, hne, hnlt]
    rw [hst, dbRun, List.foldl_append]
    have hsync : (List.foldl applyEffect st
        (updateRelayAddressesIfNeeded relay e dlts)).relayRows = st.relayRows :=
      dbRun_syncAddrs_relayRows _ st (updateRelayAddressesIfNeeded_all_sync relay e dlts)
    simp only [List.foldl_cons, List.foldl_nil]
    show (updateTorRelayRLS _ e.id dlts).relayRows = _
    simp [updateTorRelayRLS, hsync]

theorem processRelay_freshness_update_witness :
    mapLookup wLrdB1 wRelayB.Fingerprint = some wEntryB1 ∧
    recordsMatch wRelayB wEntryB1 = true ∧
    goStringLt wEntryB1.RecordLastSeen wDltsNew = true ∧
    ((processRelay wDltsNew wLrdB1 emptyDB wRelayB).2 =
      wRelayB.Or_addresses.map
        (DBEffect.syncAddr "Or" wEntryB1.ID_NodeFingerprints wDltsNew) ++
      wRelayB.Exit_addresses.map
        (DBEffect.syncAddr "Ex" wEntryB1.ID_NodeFingerprints wDltsNew) ++
      (if 0 < wRelayB.Dir_address.length then
        [DBEffect.syncAddr "Di" wEntryB1.ID_NodeFingerprints wDltsNew
          wRelayB.Dir_address]
      else []) ++
      [DBEffect.updateRLS wEntryB1.id wDltsNew] ∧
     (processRelay wDltsNew wLrdB1 emptyDB wRelayB).1.relayRows =
      emptyDB.relayRows.map (fun row =>
        if row.id = wEntryB1.id then { row with rls := wDltsNew } else row)) :=
  ⟨by decide, by decide, by decide,
   processRelay_freshness_update wRelayB wEntryB1 wLrdB1 emptyDB wDltsNew
     (by decide) (by decide) (by decide)⟩

/-! ## The idempotence scenario -/

theorem processRelay_first_ingest (r : TorRelayDetails) (d : String) :
    (processRelay d [] emptyDB r).1 = addNewTorRelayToDB emptyDB r d := by
  have hg : lrdGet [] r.Fingerprint = emptyLrdEntry := lrdGet_eq_of_none rfl
  simp [processRelay, hg, recordsMatch_empty_false, dbRun, applyEffect]

theorem rebuild_after_first (r : TorRelayDetails) (d : String) :
    ∃ fpId : Nat,
      rebuildLrd (addNewTorRelayToDB emptyDB r d) d =
        [(r.Fingerprint, lrdEntryOfRelay r 1 fpId d)] := by
  obtain ⟨row, hrows, hentry, hid, hnick, hlc, hfs, hrti, hrls, hflags, hjs, hnext⟩ :=
    addNewTorRelayToDB_spec emptyDB r d
  refine ⟨row.fpid, ?_⟩
  have hrows2 : (addNewTorRelayToDB emptyDB r d).relayRows = [row] := by
    simpa using hrows
  have hfp : dictText (addNewTorRelayToDB emptyDB r d).dict row.fpid =
      r.Fingerprint := congrArg LrdEntry.Fingerprint hentry
  rw [rebuildLrd, hrows2]
  simp only [List.foldl_cons, List.foldl_nil]
  rw [hrls, goStringLt_irrefl]
  simp only [if_false, Bool.false_eq_true, ite_false]
  rw [hfp]
  show [(r.Fingerprint, lrdEntryOfRow (addNewTorRelayToDB emptyDB r d).dict row)] = _
  rw [hentry]
  exact rfl

theorem processRelay_scenario (r : TorRelayDetails) (d : String) :
    processRelay d (rebuildLrd (processRelay d [] emptyDB r).1 d)
        (processRelay d [] emptyDB r).1 r
      = ((processRelay d [] emptyDB r).1, []) ∧
    (processRelay d [] emptyDB r).1.relayRows.length = 1 := by
  have hfirst := processRelay_first_ingest r d
  obtain ⟨fpId, hreb⟩ := rebuild_after_first r d
  constructor
  · rw [hfirst, hreb]
    have hg : lrdGet [(r.Fingerprint, lrdEntryOfRelay r 1 fpId d)] r.Fingerprint =
        lrdEntryOfRelay r 1 fpId d := by
      simp [lrdGet, mapLookup]
    have hrlsd : (lrdEntryOfRelay r 1 fpId d).RecordLastSeen = d := rfl
    simp [processRelay, hg, recordsMatch_self_entry, hrlsd, dbRun]
  · obtain ⟨row, hrows, _⟩ := addNewTorRelayToDB_spec emptyDB r d
    rw [hfirst, hrows]
    simp [emptyDB]

/-! ## Claim C4 -/

/-- C4: when the comparable fields all match the cached entry and the
snapshot timestamp equals the cached `RecordLastSeen`, the reconciliation
step is a complete no-op; consequently reconciling the same record twice with
the same `dlts`, first against an empty cache and then against the cache
rebuilt from the resulting store, leaves exactly one persisted row. -/
theorem processRelay_fresh_idempotent (relay : TorRelayDetails) (e : LrdEntry)
    (lrd : Lrd) (st : DBState) (dlts : String)
    (he : mapLookup lrd relay.Fingerprint = some e)
    (hmatch : recordsMatch relay e = true)
    (hfresh : dlts = e.RecordLastSeen) :
    processRelay dlts lrd st relay = (st, []) ∧
    ∀ (r : TorRelayDetails) (d : String),
      processRelay d (rebuildLrd (processRelay d [] emptyDB r).1 d)
          (processRelay d [] emptyDB r).1 r
        = ((processRelay d [] emptyDB r).1, []) ∧
      (processRelay d [] emptyDB r).1.relayRows.length = 1 := by
  constructor
  · have hg := lrdGet_eq_of_lookup he
    simp [processRelay, hg, hmatch, hfresh, dbRun]
  · intro r d
    exact processRelay_scenario r d

theorem processRelay_fresh_idempotent_witness :
    mapLookup wLrdB wRelayB.Fingerprint = some wEntryB ∧
    recordsMatch wRelayB wEntryB = true ∧
    wDltsNew = wEntryB.RecordLastSeen ∧
    processRelay wDltsNew wLrdB emptyDB wRelayB = (emptyDB, []) ∧
    (processRelay wDltsOld [] emptyDB wRelayB).1.relayRows.length = 1 :=
  ⟨by decide, by decide, rfl,
   (processRelay_fresh_idempotent wRelayB wEntryB wLrdB emptyDB wDltsNew
     (by decide) (by decide) rfl).1,
   ((processRelay_fresh_idempotent wRelayB wEntryB wLrdB emptyDB wDltsNew
     (by decide) (by decide) rfl).2 wRelayB wDltsOld).2⟩

/-! ## Claim C8 -/

/-- C8: when a download-time override or filename extraction is in effect and
no candidate timestamp parses under any format of the configured ordered list,
`getConsensusDLTimestamp` aborts the run fatally (`log.Fatalln`, modelled as
the error result) instead of silently defaulting to any timestamp. -/
theorem getConsensusDLTimestamp_fatal (extractDLTfromFilename : Bool)
    (consensusDLT consensusDLT_fmt : String) (extracted : List String)
    (now : GoTime) (parse : String → String → Option GoTime)
    (hactive : extractDLTfromFilename = true ∨ consensusDLT ≠ "")
    (hnoparse : ∀ ts ∈ candidateTimestamps extractDLTfromFilename consensusDLT extracted,
      ∀ f ∈ getTimeFormats consensusDLT_fmt, parse f ts = none) :
    getConsensusDLTimestamp extractDLTfromFilename consensusDLT consensusDLT_fmt
        extracted now parse =
      Except.error (candidateTimestamps extractDLTfromFilename consensusDLT extracted) := by
  have hmatch : matchTimestampToFormats parse
      (candidateTimestamps extractDLTfromFilename consensusDLT extracted)
      (getTimeFormats consensusDLT_fmt) = none := by
    rw [matchTimestampToFormats, List.findSome?_eq_none_iff]
    intro ts hts
    rw [List.findSome?_eq_none_iff]
    intro f hf
    exact hnoparse ts hts f hf
  have hcond : (!extractDLTfromFilename && consensusDLT.length == 0) = false := by
    rcases hactive with h | h
    · rw [h]; rfl
    · have hlen : (consensusDLT.length == 0) = false := by
        cases consensusDLT with
        | mk data =>
          cases data with
          | nil => exact absurd rfl h
          | cons a l => rw [String.length]; simp
      simp [hlen]
  simp [getConsensusDLTimestamp, hcond, hmatch]

theorem getConsensusDLTimestamp_fatal_witness :
    getConsensusDLTimestamp true "" "" ["2023-99-99"] ⟨2023, 1, 1, 0, 0, 0⟩
        (fun _ _ => none) =
      Except.error ["2023-99-99"] :=
  getConsensusDLTimestamp_fatal true "" "" ["2023-99-99"] ⟨2023, 1, 1, 0, 0, 0⟩
    (fun _ _ => none) (Or.inl rfl) (fun ts _ f _ => rfl)

/-! ## Facts about Go map operations (for the delta extractor) -/

theorem mapLookup_filterNe {α : Type} (m : List (String × α)) (k key : String) :
    mapLookup (m.filter (fun p => !(p.1 == k))) key =
      if key = k then none else mapLookup m key := by
  induction m with
  | nil => by_cases h : key = k <;> simp [mapLookup, h]
  | cons hd tl ih =>
    by_cases h1 : hd.1 = k
    · have hb : (!(hd.1 == k)) = false := by simp [h1]
      rw [List.filter_cons, hb]
      simp only [Bool.false_eq_true, if_false]
      rw [ih]
      by_cases h2 : key = k
      · simp [h2]
      · have hbk : (hd.1 == key) = false := by
          simp only [beq_eq_false_iff_ne, ne_eq, h1]
          exact fun hc => h2 hc.symm
        simp [mapLookup, h2, hbk]
    · have hb : (!(hd.1 == k)) = true := by simp [h1]
      rw [List.filter_cons, hb]
      simp only [if_true]
      by_cases h2 : key = k
      · rw [h2] at ih
        simp [mapLookup, ih, h2, h1]
      · simp [mapLookup, ih, h2, h1]

theorem mapLookup_mapErase {α : Type} (m : List (String × α)) (k key : String) :
    mapLookup (mapErase m k) key = if key = k then none else mapLookup m key :=
  mapLookup_filterNe m k key

theorem mapLookup_mapInsert {α : Type} (m : List (String × α)) (k key : String)
    (v : α) :
    mapLookup (mapInsert m k v) key =
      if key = k then some v else mapLookup m key := by
  by_cases h : key = k
  · subst h
    simp [mapInsert, mapLookup]
  · have hb : (k == key) = false := by
      simp only [beq_eq_false_iff_ne, ne_eq]
      exact fun hc => h hc.symm
    simp [mapInsert, mapLookup, hb, mapLookup_filterNe, h]

/-! ## The delta extractor versus the claim-side delta -/

theorem buildFp2idAux_lookup : ∀ (old : List TorRelayDetails)
    (m : List (String × Nat)) (i : Nat) (fp : String),
    mapLookup (buildFp2idAux m i old) fp =
      (match lastIdxFind old fp with
       | some p => some (i + p.1)
       | none => mapLookup m fp) := by
  intro old
  induction old with
  | nil => intro m i fp; rfl
  | cons r rest ih =>
    intro m i fp
    rw [show buildFp2idAux m i (r :: rest) =
      buildFp2idAux (mapInsert m r.Fingerprint i) (i + 1) rest from rfl]
    rw [ih]
    cases hL : lastIdxFind rest fp with
    | some p =>
      simp only [lastIdxFind, hL]
      exact congrArg some (by omega)
    | none =>
      simp only [lastIdxFind, hL]
      rw [mapLookup_mapInsert]
      by_cases h : fp = r.Fingerprint
      · subst h
        simp
      · have hb : (r.Fingerprint == fp) = false := by
          simp only [beq_eq_false_iff_ne, ne_eq]
          exact fun hc => h hc.symm
        simp [h, hb]

theorem lastIdxFind_getD : ∀ (old : List TorRelayDetails) (fp : String)
    (j : Nat) (o : TorRelayDetails),
    lastIdxFind old fp = some (j, o) → old.getD j emptyRelay = o := by
  intro old
  induction old with
  | nil => intro fp j o h; cases h
  | cons r rest ih =>
    intro fp j o h
    cases hL : lastIdxFind rest fp with
    | some p =>
      simp only [lastIdxFind, hL, Option.some.injEq, Prod.mk.injEq] at h
      obtain ⟨hj, ho⟩ := h
      have hrec := ih fp p.1 p.2 (by rw [hL])
      rw [← hj, List.getD_cons_succ, hrec, ho]
    | none =>
      simp only [lastIdxFind, hL] at h
      cases hfp : (r.Fingerprint == fp) with
      | true =>
        rw [hfp] at h
        simp only [if_true, Option.some.injEq, Prod.mk.injEq] at h
        obtain ⟨hj, ho⟩ := h
        rw [← hj, List.getD_cons_zero, ho]
      | false =>
        rw [hfp] at h
        simp at h

theorem specDeltaC2_cons (old : List TorRelayDetails) (n : TorRelayDetails)
    (rest : List TorRelayDetails) :
    specDeltaC2 old (n :: rest) =
      if keepInDelta old n then n :: specDeltaC2 old rest
      else specDeltaC2 old rest := by
  simp [specDeltaC2, List.filter_cons]

theorem extractLoop_eq_spec (old : List TorRelayDetails) :
    ∀ (l : List TorRelayDetails) (m : List (String × Nat)),
      (l.map (fun r => r.Fingerprint)).Nodup →
      (∀ n ∈ l, mapLookup m n.Fingerprint =
        mapLookup (buildFp2id old) n.Fingerprint) →
      extractLoop old m l = specDeltaC2 old l := by
  intro l
  induction l with
  | nil => intro m _ _; rfl
  | cons n rest ih =>
    intro m hnd hm
    have hn := hm n (List.mem_cons_self _ _)
    rw [List.map_cons, List.nodup_cons] at hnd
    obtain ⟨hnotin, hndrest⟩ := hnd
    have hmrest : ∀ x ∈ rest, mapLookup m x.Fingerprint =
        mapLookup (buildFp2id old) x.Fingerprint :=
      fun x hx => hm x (List.mem_cons_of_mem _ hx)
    have hfp : mapLookup (buildFp2id old) n.Fingerprint =
        (match lastIdxFind old n.Fingerprint with
         | some p => some p.1
         | none => none) := by
      rw [buildFp2id, buildFp2idAux_lookup]
      cases lastIdxFind old n.Fingerprint <;> simp [mapLookup]
    cases hL : lastIdxFind old n.Fingerprint with
    | none =>
      have h0 : mapLookup m n.Fingerprint = none := by
        rw [hn, hfp, hL]
      have hlfm : lastFingerprintMatch old n.Fingerprint = none := by
        simp [lastFingerprintMatch, hL]
      have hkeep : keepInDelta old n = true := by
        simp [keepInDelta, hlfm]
      simp only [extractLoop, h0]
      rw [specDeltaC2_cons, if_pos hkeep, ih m hndrest hmrest]
    | some p =>
      have h0 : mapLookup m n.Fingerprint = some p.1 := by
        rw [hn, hfp, hL]
      have hgd : old.getD p.1 emptyRelay = p.2 :=
        lastIdxFind_getD old n.Fingerprint p.1 p.2 (by rw [hL])
      have hlfm : lastFingerprintMatch old n.Fingerprint = some p.2 := by
        simp [lastFingerprintMatch, hL]
      simp only [extractLoop, h0]
      rw [hgd]
      cases heq : (n == p.2) with
      | true =>
        have hkeep : keepInDelta old n = false := by
          simp [keepInDelta, hlfm, heq]
        simp only [if_true]
        rw [specDeltaC2_cons, if_neg (by simp [hkeep])]
        apply ih
        · exact hndrest
        · intro x hx
          have hxne : x.Fingerprint ≠ n.Fingerprint := by
            intro hc
            apply hnotin
            rw [← hc]
            exact List.mem_map_of_mem _ hx
          rw [mapErase, mapLookup_filterNe, if_neg hxne]
          exact hmrest x hx
      | false =>
        have hkeep : keepInDelta old n = true := by
          simp [keepInDelta, hlfm, heq]
        simp only [Bool.false_eq_true, if_false]
        rw [specDeltaC2_cons, if_pos hkeep, ih m hndrest hmrest]

/-! ## Claim C2 -/

/-- C2 counterexample: with a duplicated fingerprint in the current snapshot,
the extractor's `delete` makes it forward the second copy of a record that is
deeply equal to its previous counterpart, so the output is not the claimed
exact delta set. -/
theorem extractNewAndUpdatedRelays_dup_counterexample :
    extractNewAndUpdatedRelays [wRelayD] [wRelayD, wRelayD] ≠
      specDeltaC2 [wRelayD] [wRelayD, wRelayD] := by decide

/-- C2 (amended): provided the records of the current snapshot have pairwise
distinct fingerprints (as snapshots do), `extractNewAndUpdatedRelays` returns
exactly those records of `current` whose fingerprint is absent from
`previous` or which are not deeply equal to the previous record with the same
fingerprint — every differing record is forwarded and every deeply equal one
is excluded. -/
theorem extractNewAndUpdatedRelays_eq_specDelta (old new : List TorRelayDetails)
    (hnodup : (new.map (fun r => r.Fingerprint)).Nodup) :
    extractNewAndUpdatedRelays old new = specDeltaC2 old new := by
  rw [extractNewAndUpdatedRelays]
  exact extractLoop_eq_spec old new (buildFp2id old) hnodup (fun _ _ => rfl)

theorem extractNewAndUpdatedRelays_eq_specDelta_witness :
    ([wRelayD, wRelayE].map (fun r => r.Fingerprint)).Nodup ∧
    extractNewAndUpdatedRelays [wRelayD] [wRelayD, wRelayE] =
      specDeltaC2 [wRelayD] [wRelayD, wRelayE] :=
  ⟨by decide,
   extractNewAndUpdatedRelays_eq_specDelta [wRelayD] [wRelayD, wRelayE] (by decide)⟩
